import Mathlib

/-!
Verification of `gridit`'s grid-polygon conversion module
(`gridit/gridpolyconv.py`) against its natural-language specification.

The Python module is shallowly embedded below. Numpy integer arrays are
modelled as rectangular nested lists of `Int` together with explicit
dimension fields (numpy guarantees rectangularity; a well-formedness
predicate relates the dimension fields to the data where needed). Numpy
float arithmetic is modelled over `ℚ`. Fallible Python code (raising
`ValueError` etc.) is modelled with `Except String`. Effectful fragments
of `from_grid_vector` (file system reads/writes, `pickle`) are modelled
as pure functions parameterised by outcome oracles, returning the list
of performed effects alongside the result.
-/

namespace Gridit

/-- 2D integer numpy array (shape `nrow × ncol`), as used for an
unrefined index raster. -/
structure Arr2 where
  nrow : Nat
  ncol : Nat
  data : List (List Int)
deriving DecidableEq, Repr

/-- 3D integer numpy array (shape `nlev × nrow × ncol`), as used for a
refined index raster and for `ar_count`. -/
structure Arr3 where
  nlev : Nat
  nrow : Nat
  ncol : Nat
  data : List (List (List Int))
deriving DecidableEq, Repr

/-- Element access `a[r, c]` (0 outside the stored data; theorems only
use indices inside the declared shape). -/
def Arr2.get (a : Arr2) (r c : Nat) : Int :=
  (a.data.getD r []).getD c 0

/-- Element access `a[l, r, c]`. -/
def Arr3.get (a : Arr3) (l r c : Nat) : Int :=
  ((a.data.getD l []).getD r []).getD c 0

/-- Well-formedness: the data really is rectangular with the declared
shape (true of every numpy array). -/
def Arr2.WF (a : Arr2) : Prop :=
  a.data.length = a.nrow ∧ ∀ row ∈ a.data, row.length = a.ncol

/-- Well-formedness of a 3D array. -/
def Arr3.WF (a : Arr3) : Prop :=
  a.data.length = a.nlev ∧
    ∀ lev ∈ a.data, lev.length = a.nrow ∧ ∀ row ∈ lev, row.length = a.ncol

/-- An `idx_ar` argument: `GridPolyConv.__init__` accepts a 2D or a 3D
integer numpy array (any other ndim raises, see `gpcInit`). -/
inductive NdArr where
  | a2 (v : Arr2)
  | a3 (v : Arr3)
deriving DecidableEq, Repr

/-- Python source, `GridPolyConv.__init__` (denominator of the weight):
`denominator = ar_count.sum(0)`, the per-cell total of `ar_count`
across levels. -/
def colTotal (cnt : Arr3) (r c : Nat) : Int :=
  ∑ l in Finset.range cnt.nlev, cnt.get l r c

/-- Python source, `GridPolyConv.__init__`:
```
denominator = ar_count.sum(0)
if (denominator != 0).all():
    self.weight = ar_count / denominator
else:
    denominator = np.broadcast_arrays(ar_count, denominator)[1]
    nzdm = denominator != 0
    self.weight = np.zeros(idx_ar.shape)
    self.weight[nzdm] = ar_count[nzdm] / denominator[nzdm]
```
Both branches give `count / total` where the per-cell total is non-zero;
the second branch leaves 0 where the total is zero. -/
def weightFn (cnt : Arr3) : Nat → Nat → Nat → ℚ :=
  if ∀ r < cnt.nrow, ∀ c < cnt.ncol, colTotal cnt r c ≠ 0 then
    fun l r c => (cnt.get l r c : ℚ) / (colTotal cnt r c : ℚ)
  else
    fun l r c =>
      if colTotal cnt r c ≠ 0 then (cnt.get l r c : ℚ) / (colTotal cnt r c : ℚ)
      else 0

/-- Per-cell sum of weights across levels, `self.weight.sum(0)`. -/
def wsum (cnt : Arr3) (r c : Nat) : ℚ :=
  ∑ l in Finset.range cnt.nlev, weightFn cnt l r c

/-- The `GridPolyConv` entity: polygon index tuple, index raster and
(for the refined case) the overlap-count raster. `weight` and `mask`
are derived data (see `weightFn`, `GPC.maskAt`); the logger carries no
behavioural state. Polygon keys are modelled as integers. -/
structure GPC where
  poly_idx : List Int
  idx_ar : NdArr
  ar_count : Option Arr3
deriving DecidableEq, Repr

/-- Python source, `GridPolyConv.__init__`. The isinstance/dtype checks
are vacuous in the embedding (arguments are typed); the remaining
checks and the stored fields are modelled faithfully:
- non-unique `poly_idx` values raise;
- 2D `idx_ar`: `ar_count` is ignored (set to `None`), with a logged
  error when one was passed;
- 3D `idx_ar`: `ar_count` is required and its shape must match;
- the `ndim not in (2, 3)` error cannot arise for `NdArr`. -/
def gpcInit (poly_idx : List Int) (idx_ar : NdArr) (ar_count : Option Arr3) :
    Except String GPC :=
  if poly_idx.length ≠ poly_idx.dedup.length then
    .error "poly_idx values are not unique"
  else
    match idx_ar with
    | .a2 v => .ok ⟨poly_idx, .a2 v, none⟩
    | .a3 v =>
      match ar_count with
      | none => .error "ar_count must be specified if idx_ar is 3D"
      | some cnt =>
        if (cnt.nlev, cnt.nrow, cnt.ncol) ≠ (v.nlev, v.nrow, v.ncol) then
          .error "ar_count shape must match idx_ar"
        else
          .ok ⟨poly_idx, .a3 v, some cnt⟩

/-- Python source, `GridPolyConv.__init__`: `self.mask = idx_ar == 0`
(2D case) or `self.mask = idx_ar[0] == 0` (3D case). -/
def GPC.maskAt (m : GPC) (r c : Nat) : Bool :=
  match m.idx_ar with
  | .a2 v => v.get r c == 0
  | .a3 v => v.get 0 r c == 0

/-- Per-cell weight sum of a mapping (0 for an unrefined mapping, whose
`weight` attribute is `None`). -/
def GPC.wsumAt (m : GPC) (r c : Nat) : ℚ :=
  match m.ar_count with
  | some cnt => wsum cnt r c
  | none => 0

/-- Python source, `GridPolyConv.__eq__`. After comparing class names
(always equal here: both objects are `GPC`) and `poly_idx`, the method
compares `idx_ar` inside a `try`/`except` whose two branches `return
True` / `return False`; the `ar_count` comparison that follows it in
the source (lines 144-153) is unreachable and is therefore absent from
the embedding. -/
def GPC.eqFn (a b : GPC) : Bool :=
  if a.poly_idx ≠ b.poly_idx then false
  else if a.idx_ar = b.idx_ar then true
  else false

/-- Python source, `GridPolyConv.__getstate__` / `__iter__`: the
serialized state is exactly the `poly_idx`, `idx_ar` and `ar_count`
datasets. -/
def GPC.getstate (m : GPC) : List Int × NdArr × Option Arr3 :=
  (m.poly_idx, m.idx_ar, m.ar_count)

/-- Python source, `GridPolyConv.__setstate__`: re-run `__init__` on the
deserialized state. -/
def setstate (s : List Int × NdArr × Option Arr3) : Except String GPC :=
  gpcInit s.1 s.2.1 s.2.2

/-! ## Cache manager (`from_grid_vector` caching fragments) -/

/-- File names are modelled as lists of characters (so that concrete
instances evaluate inside the kernel). -/
abbrev FName := List Char

/-- Python source, filter inside `find_cache`:
`f.is_file() and f.name[0] == "c" and f.suffix == ".gpc"` (for a name
whose first character is `c`, `Path.suffix == ".gpc"` is exactly
"ends with `.gpc`"; the listing is already restricted to files). -/
def isCacheFile (f : FName) : Bool :=
  f.take 1 == ['c'] && f.drop (f.length - 4) == '.' :: 'g' :: 'p' :: 'c' :: []

/-- Python source, `find_cache(dirname, fname)` closure of
`from_grid_vector`. The directory is modelled by whether it exists
(`isDir`) and its file listing; the result is the matched file name
(the source returns `dirname / name`). -/
def find_cache (isDir : Bool) (listing : List FName) (fname : FName)
    (caching : Nat) : Option FName :=
  if !isDir then none
  else
    let list_dir := listing.filter isCacheFile
    if list_dir.isEmpty then none
    else if fname ∈ list_dir then some fname
    else if caching == 1 then
      (list_dir.filter fun f => f.take 9 == fname.take 9).head?
    else none

/-- Outcome oracle for one cache-write attempt: the `pickle.dump` call
either succeeds, raises `pickle.PicklingError`, or raises any other
exception. -/
inductive WOut where
  | success
  | pickleErr
  | otherErr
deriving DecidableEq, Repr

/-- Python source, `write_cache(dirname)` closure of
`from_grid_vector`: returns the "tryagain" bool; a `PicklingError` is
logged and re-raised, any other exception is logged and reported as
"try again". -/
def write_cache (out : String → WOut) (d : String) : Except String Bool :=
  match out d with
  | .success => .ok false
  | .pickleErr => .error "PicklingError"
  | .otherErr => .ok true

/-- Python source, the store phase at the end of `from_grid_vector`
(caching enabled):
```
if cache_grid_dir: _ = write_cache(cache_grid_dir)
else:
    tryagain = write_cache(Path(fname).parent)
    if tryagain: _ = write_cache(Path("."))
return obj
```
The result pairs the returned mapping with the list of directories in
which a write was attempted, or is the escalated exception. -/
def fgv_store (obj : GPC) (cache_grid_dir : Option String)
    (srcDir cwd : String) (out : String → WOut) :
    Except String (GPC × List String) :=
  match cache_grid_dir with
  | some d =>
    match write_cache out d with
    | .error e => .error e
    | .ok _ => .ok (obj, [d])
  | none =>
    match write_cache out srcDir with
    | .error e => .error e
    | .ok true =>
      match write_cache out cwd with
      | .error e => .error e
      | .ok _ => .ok (obj, [srcDir, cwd])
    | .ok false => .ok (obj, [srcDir])

/-- Python source, the cache-hit branch of `from_grid_vector` (lines
339-348): try to unpickle the found cache file and return it; on any
exception, log, `os.remove` the corrupt file and fall through to
rebuilding the mapping. The `load` oracle gives the deserialization
outcome and `rebuild` the freshly built mapping; the result pairs the
returned mapping with the list of removed files. -/
def fgv_read (cache_path : Option String)
    (load : String → Except String GPC) (rebuild : GPC) :
    GPC × List String :=
  match cache_path with
  | none => (rebuild, [])
  | some p =>
    match load p with
    | .ok m => (m, [])
    | .error _ => (rebuild, [p])

/-! ## Temporal reducer fragments (`array_from_netcdf`) -/

/-- Python source, `array_from_netcdf`:
`num_months = end_month - start_month + 1` (before any wrap
adjustment). -/
def num_months0 (s e : Int) : Int := e - s + 1

/-- Python source, `array_from_netcdf` month-selection mask, applied to
one timestamp's month-of-year `m`:
```
if (num_months % 12) == 0: month_sel = ones (select all months)
elif num_months < 1: month_sel = (month >= start) | (month <= end)
else: month_sel = (month >= start) & (month <= end)
```
-/
def month_sel (s e m : Int) : Bool :=
  if num_months0 s e % 12 = 0 then true
  else if num_months0 s e < 1 then decide (m ≥ s) || decide (m ≤ e)
  else decide (s ≤ m) && decide (m ≤ e)

/-- Python source, `array_from_netcdf` lines 806-809: the "catchment
weights" used for year ranking,
`weight = self.weight.sum((1, 2))` — the per-LEVEL totals of the 3D
weight array, a vector of length `nlev` (not a per-polygon vector). -/
def levelWeightSums (cnt : Arr3) : List ℚ :=
  (List.range cnt.nlev).map fun l =>
    ∑ r in Finset.range cnt.nrow, ∑ c in Finset.range cnt.ncol,
      weightFn cnt l r c

/-- Numpy broadcasting of a 1-D vector against the trailing
(polygon-index) axis of the time series, as in `weight * var`: the
lengths must be equal or one of them must be 1, otherwise numpy raises
"operands could not be broadcast together". -/
def broadcastMul (w xs : List ℚ) : Except String (List ℚ) :=
  if w.length = xs.length then .ok (List.zipWith (· * ·) w xs)
  else if w.length = 1 then .ok (xs.map fun x => w.getD 0 0 * x)
  else if xs.length = 1 then .ok (w.map fun x => x * xs.getD 0 0)
  else .error "operands could not be broadcast together"

/-- Python source, `array_from_netcdf` lines 806-810 applied to one
timestep's per-polygon values:
```
if self.weight is None: weight = 1.0
else: weight = self.weight.sum((1, 2))
wvar = weight * var
```
-/
def wvarStep (m : GPC) (polyVals : List ℚ) : Except String (List ℚ) :=
  match m.ar_count with
  | none => .ok (polyVals.map fun x => 1 * x)
  | some cnt => broadcastMul (levelWeightSums cnt) polyVals

/-! ## Value projector (`array_from_values`) -/

/-- Python/numpy-semantics read from a 1-D vector at an integer fancy
index: a negative index within range wraps from the end. Out-of-range
reads default to 0; `array_from_values` rejects them beforehand. -/
def pyGet (xs : List ℚ) (e : Int) : ℚ :=
  if e < 0 then xs.getD (e + xs.length).toNat 0 else xs.getD e.toNat 0

/-- Bounds check numpy performs on a fancy index into a vector of
length `n`: `-n ≤ e < n` (an `IndexError` is raised otherwise). -/
def inRangeB (n : Nat) (e : Int) : Bool :=
  decide (-(n : Int) ≤ e) && decide (e < (n : Int))

/-- All entries of a 2D index array are valid fancy indexes into a
vector of length `n`. -/
def entriesOk2 (v : Arr2) (n : Nat) : Bool :=
  v.data.all fun row => row.all (inRangeB n)

/-- All entries of a 3D index array are valid fancy indexes into a
vector of length `n`. -/
def entriesOk3 (v : Arr3) (n : Nat) : Bool :=
  v.data.all fun lev => lev.all fun row => row.all (inRangeB n)

/-- The `values` argument of `array_from_values`: a numpy float array
that is 1D, 2D, or of some other dimensionality `n ∉ {1, 2}` (whose
contents are irrelevant, since it is rejected before any use). -/
inductive Vals where
  | v1 (xs : List ℚ)
  | v2 (xss : List (List ℚ))
  | vother (n : Nat)

/-- Number of dimensions, `values.ndim`. -/
def Vals.ndim : Vals → Nat
  | .v1 _ => 1
  | .v2 _ => 2
  | .vother n => n

/-- Length of the last dimension, `values.shape[-1]` (numpy arrays are
rectangular, so for a 2D array every row has this length). -/
def Vals.lastDim : Vals → Nat
  | .v1 xs => xs.length
  | .v2 xss => (xss.headD []).length
  | .vother _ => 0

/-- Well-formedness of a `values` argument as a numpy array: 2D data is
rectangular, and the `vother` constructor is only used for
dimensionalities other than 1 and 2. -/
def Vals.WF : Vals → Prop
  | .v1 _ => True
  | .v2 xss => ∀ row ∈ xss, row.length = (xss.headD []).length
  | .vother n => n ≠ 1 ∧ n ≠ 2

/-- Python source, the subset/re-order step of `array_from_values`:
```
order = []
for idx in self.poly_idx:
    if idx in index_s:
        order.append(index.index(idx))
values = values[order]    (or values[:, order] for 2D)
```
applied to one row of values. -/
def reorderRow (index poly_idx : List Int) (xs : List ℚ) : List ℚ :=
  (poly_idx.filter fun k => k ∈ index).map fun k => xs.getD (index.indexOf k) 0

/-- Output of `array_from_values`: a 2D or a 3D masked array. Values
are total functions on indices; the mask is the mapping's 2D
`CoverageMask` (numpy broadcasts it over the leading axis when the
output is 3D). -/
inductive MOut where
  | o2 (val : Nat → Nat → ℚ) (mask : Nat → Nat → Bool)
  | o3 (val : Nat → Nat → Nat → ℚ) (mask : Nat → Nat → Bool)

/-- Cell value of a 2D output. -/
def MOut.val2 : MOut → Nat → Nat → ℚ
  | .o2 v _, r, c => v r c
  | .o3 _ _, _, _ => 0

/-- Cell value of a 3D output. -/
def MOut.val3 : MOut → Nat → Nat → Nat → ℚ
  | .o3 v _, t, r, c => v t r c
  | .o2 _ _, _, _, _ => 0

/-- Numpy `np.clip(x, 0.0, 1.0)`. -/
def clip01 (x : ℚ) : ℚ := max 0 (min 1 x)

/-- Python source, the weighted blend of one row of (0-extended)
values: `(ar_values * self.weight).sum(0)` at one cell, where
`ar_values = values[self.idx_ar]`. -/
def blend (v cnt : Arr3) (newv : List ℚ) (r c : Nat) : ℚ :=
  ∑ l in Finset.range v.nlev, pyGet newv (v.get l r c) * weightFn cnt l r c

/-- Python source, the outside-fill correction of `array_from_values`:
```
if fill and self.weight is not None:
    weight2d = np.clip(self.weight.sum(0), 0.0, 1.0)
    outside = (1.0 - weight2d) * fill
    ar += outside
```
-/
def fillAdd (cnt : Arr3) (fill : ℚ) (f : Nat → Nat → ℚ) : Nat → Nat → ℚ :=
  if fill ≠ 0 then fun r c => f r c + (1 - clip01 (wsum cnt r c)) * fill
  else f

/-- Python source, `GridPolyConv.array_from_values(index, values, fill,
enforce1d)`. The validation checks appear in source order; the
`index`-to-list conversion and the values-to-ndarray conversion are
vacuous in the embedding. The final two match arms cannot arise:
`vother` is rejected by the first check, and `__init__` produces
`ar_count = None` exactly for 2D index arrays. -/
def array_from_values (m : GPC) (index : List Int) (values : Vals)
    (fill : ℚ) (enforce1d : Bool) : Except String MOut :=
  if values.ndim ≠ 1 ∧ values.ndim ≠ 2 then
    .error "expected values to have 1 or 2 dimensions"
  else if index.length ≠ values.lastDim then
    .error "length of last dimension of values does not match index length"
  else if enforce1d = true ∧ values.ndim ≠ 1 then
    .error "values must have one dimension"
  else if ∀ x ∈ index, x ∉ m.poly_idx then
    .error "index is disjoint from poly_idx"
  else if ¬ (∀ k ∈ m.poly_idx, k ∈ index) then
    .error "index is not a superset of poly_idx"
  else
    let n := (if index = m.poly_idx then values.lastDim
              else (m.poly_idx.filter fun k => k ∈ index).length) + 1
    match values with
    | .v1 xs =>
      let xs' := if index = m.poly_idx then xs else reorderRow index m.poly_idx xs
      match m.idx_ar, m.ar_count with
      | .a2 v, none =>
        if entriesOk2 v n then
          .ok (.o2 (fun r c => pyGet (fill :: xs') (v.get r c)) m.maskAt)
        else .error "index out of bounds"
      | .a3 v, some cnt =>
        if entriesOk3 v n then
          .ok (.o2 (fillAdd cnt fill (blend v cnt (fill :: xs'))) m.maskAt)
        else .error "index out of bounds"
      | _, _ => .error "mapping state unreachable for constructed objects"
    | .v2 xss =>
      let rows := if index = m.poly_idx then xss
                  else xss.map (reorderRow index m.poly_idx)
      match m.idx_ar, m.ar_count with
      | .a2 v, none =>
        if entriesOk2 v n then
          .ok (.o3 (fun t r c => pyGet (fill :: rows.getD t []) (v.get r c))
            m.maskAt)
        else .error "index out of bounds"
      | .a3 v, some cnt =>
        if entriesOk3 v n then
          .ok (.o3 (fun t r c =>
              fillAdd cnt fill (blend v cnt (fill :: rows.getD t [])) r c)
            m.maskAt)
        else .error "index out of bounds"
      | _, _ => .error "mapping state unreachable for constructed objects"
    | .vother _ => .error "unreachable: rejected by the ndim check"

/-- Documented invariant of `idx_ar` ("values are between 0 and
len(poly_idx), where 0 is nodata"), quantified over the stored data. -/
def GPC.idxBounded (m : GPC) : Prop :=
  match m.idx_ar with
  | .a2 v => ∀ row ∈ v.data, ∀ e ∈ row, 0 ≤ e ∧ e ≤ (m.poly_idx.length : Int)
  | .a3 v => ∀ lev ∈ v.data, ∀ row ∈ lev, ∀ e ∈ row,
      0 ≤ e ∧ e ≤ (m.poly_idx.length : Int)

instance (m : GPC) : Decidable m.idxBounded :=
  match m with
  | ⟨p, .a2 v, _⟩ => inferInstanceAs (Decidable (∀ row ∈ v.data, ∀ e ∈ row,
      0 ≤ e ∧ e ≤ (p.length : Int)))
  | ⟨p, .a3 v, _⟩ => inferInstanceAs (Decidable (∀ lev ∈ v.data,
      ∀ row ∈ lev, ∀ e ∈ row, 0 ≤ e ∧ e ≤ (p.length : Int)))

/-- Value extractor for a 2D `array_from_values` result (0 when the
call failed or returned a 3D array). -/
def afvVal2 (m : GPC) (index : List Int) (values : Vals) (fill : ℚ)
    (r c : Nat) : ℚ :=
  match array_from_values m index values fill false with
  | .ok o => o.val2 r c
  | .error _ => 0

/-- Value extractor for a 3D `array_from_values` result. -/
def afvVal3 (m : GPC) (index : List Int) (values : Vals) (fill : ℚ)
    (t r c : Nat) : ℚ :=
  match array_from_values m index values fill false with
  | .ok o => o.val3 t r c
  | .error _ => 0

/-! ## Helper lemmas about the derived weight array -/

/-- Pointwise form of `weightFn`: inside the array bounds, both branches
of the source's divide-by-zero guard give `count / total` where the
per-cell total is non-zero and 0 where it is zero. -/
theorem weightFn_eq (cnt : Arr3) (l r c : Nat) (hr : r < cnt.nrow)
    (hc : c < cnt.ncol) :
    weightFn cnt l r c =
      if colTotal cnt r c ≠ 0 then
        (cnt.get l r c : ℚ) / (colTotal cnt r c : ℚ)
      else 0 := by
  unfold weightFn
  split
  next hall => rw [if_pos (hall r hr c hc)]
  next => rfl

/-- The per-cell sum of weights across levels is 1 where the per-cell
total count is non-zero and 0 where it is zero. -/
theorem wsum_eq (cnt : Arr3) (r c : Nat) (hr : r < cnt.nrow)
    (hc : c < cnt.ncol) :
    wsum cnt r c = if colTotal cnt r c ≠ 0 then 1 else 0 := by
  unfold wsum
  rw [Finset.sum_congr rfl fun l _ => weightFn_eq cnt l r c hr hc]
  have hcast : ((colTotal cnt r c : ℤ) : ℚ) =
      ∑ l in Finset.range cnt.nlev, (cnt.get l r c : ℚ) := by
    unfold colTotal
    push_cast
    rfl
  by_cases h : colTotal cnt r c ≠ 0
  · simp only [if_pos h]
    rw [← Finset.sum_div, ← hcast]
    exact div_self (by exact_mod_cast h)
  · simp only [if_neg h]
    simp

/-! ## Helper lemmas about constructed mappings and the value projector -/

/-- Case analysis on a successful `__init__`: the fields are stored
as passed, a 2D index array forces `ar_count = None`, and a 3D one
forces a shape-matching `ar_count`. -/
theorem gpcInit_cases (p : List Int) (i : NdArr) (c0 : Option Arr3)
    (m : GPC) (h : gpcInit p i c0 = .ok m) :
    m.poly_idx = p ∧ m.idx_ar = i ∧
      ((∃ v, i = .a2 v ∧ m.ar_count = none) ∨
        (∃ v cnt, i = .a3 v ∧ m.ar_count = some cnt ∧
          cnt.nlev = v.nlev ∧ cnt.nrow = v.nrow ∧ cnt.ncol = v.ncol)) := by
  by_cases hd : p.length ≠ p.dedup.length
  · cases i <;> simp [gpcInit, hd] at h
  · cases i with
    | a2 v =>
      simp only [gpcInit, if_neg hd] at h
      obtain rfl := (Except.ok.injEq _ _).mp h
      exact ⟨rfl, rfl, .inl ⟨v, rfl, rfl⟩⟩
    | a3 v =>
      cases c0 with
      | none => simp [gpcInit, hd] at h
      | some cnt =>
        simp only [gpcInit, if_neg hd] at h
        split at h
        next => simp at h
        next hns =>
          obtain rfl := (Except.ok.injEq _ _).mp h
          push_neg at hns
          simp only [Prod.mk.injEq] at hns
          exact ⟨rfl, rfl, .inr ⟨v, cnt, rfl, rfl, hns.1, hns.2.1, hns.2.2⟩⟩

/-- A `getD` read is either a member of the list or the default. -/
theorem getD_mem_or_default {α : Type} (l : List α) (n : Nat) (d : α) :
    l.getD n d ∈ l ∨ l.getD n d = d := by
  rcases h : l.get? n with _ | a
  · right
    simp [List.getD_eq_getElem?_getD, ← List.get?_eq_getElem?, h]
  · left
    have he : l.getD n d = a := by
      simp [List.getD_eq_getElem?_getD, ← List.get?_eq_getElem?, h]
    rw [he]
    exact List.get?_mem h

/-- Every read from a data-bounded 3D index array is bounded. -/
theorem get3_bounded (v : Arr3) (B : Int) (hB : 0 ≤ B)
    (hb : ∀ lev ∈ v.data, ∀ row ∈ lev, ∀ e ∈ row, 0 ≤ e ∧ e ≤ B)
    (l r c : Nat) : 0 ≤ v.get l r c ∧ v.get l r c ≤ B := by
  unfold Arr3.get
  rcases getD_mem_or_default v.data l [] with hlev | hlev
  · rcases getD_mem_or_default (v.data.getD l []) r [] with hrow | hrow
    · rcases getD_mem_or_default ((v.data.getD l []).getD r []) c 0 with he | he
      · exact hb _ hlev _ hrow _ he
      · rw [he]
        exact ⟨le_refl 0, hB⟩
    · rw [hrow]
      simpa using hB
  · rw [hlev]
    simpa using hB

/-- Data-bounded entries pass the numpy fancy-index bounds check. -/
theorem entriesOk2_true (v : Arr2) (n : Nat) (B : Int)
    (hb : ∀ row ∈ v.data, ∀ e ∈ row, 0 ≤ e ∧ e ≤ B)
    (hn : B < (n : Int)) : entriesOk2 v n = true := by
  simp only [entriesOk2, List.all_eq_true, inRangeB, Bool.and_eq_true,
    decide_eq_true_eq]
  intro row hrow e he
  obtain ⟨h1, h2⟩ := hb row hrow e he
  omega

/-- Data-bounded entries pass the numpy fancy-index bounds check (3D
case). -/
theorem entriesOk3_true (v : Arr3) (n : Nat) (B : Int)
    (hb : ∀ lev ∈ v.data, ∀ row ∈ lev, ∀ e ∈ row, 0 ≤ e ∧ e ≤ B)
    (hn : B < (n : Int)) : entriesOk3 v n = true := by
  simp only [entriesOk3, List.all_eq_true, inRangeB, Bool.and_eq_true,
    decide_eq_true_eq]
  intro lev hlev row hrow e he
  obtain ⟨h1, h2⟩ := hb lev hlev row hrow e he
  omega

/-- Under the superset condition the re-order step keeps every polygon
key. -/
theorem reorder_filter_eq (index poly : List Int)
    (hsup : ∀ k ∈ poly, k ∈ index) :
    (poly.filter fun k => k ∈ index) = poly :=
  List.filter_eq_self.mpr fun a ha => by simpa using hsup a ha

/-- Length of a re-ordered row under the superset condition. -/
theorem reorderRow_length (index poly : List Int) (xs : List ℚ)
    (hsup : ∀ k ∈ poly, k ∈ index) :
    (reorderRow index poly xs).length = poly.length := by
  unfold reorderRow
  rw [List.length_map, reorder_filter_eq index poly hsup]

/-- A strictly positive fancy index never reads the head of the
0-extended value vector, so the head value is irrelevant there. -/
theorem pyGet_cons_pos (z z' : ℚ) (xs : List ℚ) (e : Int) (h1 : 0 < e) :
    pyGet (z :: xs) e = pyGet (z' :: xs) e := by
  unfold pyGet
  rw [if_neg (by omega), if_neg (by omega)]
  obtain ⟨k, hk⟩ : ∃ k, e.toNat = k + 1 := ⟨e.toNat - 1, by omega⟩
  rw [hk, List.getD_cons_succ, List.getD_cons_succ]

/-- Fancy index 0 reads the head of the extended value vector. -/
theorem pyGet_cons_zero (z : ℚ) (xs : List ℚ) : pyGet (z :: xs) 0 = z := by
  simp [pyGet]

/-- The weighted blend does not depend on the head (index-0 slot) of
the extended value vector, provided the weight vanishes wherever the
index raster is 0 and all index entries are non-negative. -/
theorem blend_cons_eq (v cnt : Arr3) (xs : List ℚ) (z z' : ℚ) (r c : Nat)
    (hzw : ∀ l < cnt.nlev, v.get l r c = 0 → weightFn cnt l r c = 0)
    (hlev : cnt.nlev = v.nlev)
    (hb : ∀ l, 0 ≤ v.get l r c) :
    blend v cnt (z :: xs) r c = blend v cnt (z' :: xs) r c := by
  unfold blend
  refine Finset.sum_congr rfl fun l hl => ?_
  rcases eq_or_lt_of_le (hb l) with h0 | hpos
  · rw [hzw l (hlev ▸ Finset.mem_range.mp hl) h0.symm]
    ring
  · rw [pyGet_cons_pos z z' xs _ hpos]

/-- With `fill = 0` the source skips the outside-fill correction. -/
theorem fillAdd_zero (cnt : Arr3) (f : Nat → Nat → ℚ) :
    fillAdd cnt 0 f = f := by
  simp [fillAdd]

/-- With `fill ≠ 0` the outside-fill correction adds
`(1 - clip(weight sum)) * fill` at every cell. -/
theorem fillAdd_ne (cnt : Arr3) (fill : ℚ) (hf : fill ≠ 0)
    (f : Nat → Nat → ℚ) (r c : Nat) :
    fillAdd cnt fill f r c = f r c + (1 - clip01 (wsum cnt r c)) * fill := by
  simp [fillAdd, hf]

/-- Reading a mapped list inside its range commutes with the map. -/
theorem getD_map_of_lt {α β : Type} (f : α → β) (l : List α) (t : Nat)
    (ht : t < l.length) (d : α) (d' : β) :
    (l.map f).getD t d' = f (l.getD t d) := by
  rcases h : l[t]? with _ | a
  · exact absurd (List.getElem?_eq_none_iff.mp h) (by omega)
  · have hm : (l.map f)[t]? = some (f a) := by
      rw [List.getElem?_map, h]
      rfl
    simp [List.getD_eq_getElem?_getD, h, hm]

/-- Evaluation of `array_from_values` on 1D values over a refined
(weighted) mapping, when every validation check passes. -/
theorem afv_v1_weighted_eq (p : List Int) (i : NdArr) (c0 : Option Arr3)
    (m : GPC) (v cnt : Arr3) (_h : gpcInit p i c0 = .ok m)
    (hi : m.idx_ar = .a3 v) (hcnt : m.ar_count = some cnt)
    (hbnd : m.idxBounded) (index : List Int) (xs : List ℚ)
    (h2 : index.length = xs.length)
    (h3 : ¬ ∀ x ∈ index, x ∉ m.poly_idx)
    (h4 : ∀ k ∈ m.poly_idx, k ∈ index) (fill : ℚ) :
    array_from_values m index (.v1 xs) fill false =
      .ok (.o2 (fillAdd cnt fill (blend v cnt
        (fill :: (if index = m.poly_idx then xs
                  else reorderRow index m.poly_idx xs)))) m.maskAt) := by
  have hbnd' : ∀ lev ∈ v.data, ∀ row ∈ lev, ∀ e ∈ row,
      0 ≤ e ∧ e ≤ (m.poly_idx.length : Int) := by
    simpa [GPC.idxBounded, hi] using hbnd
  have hn : (if index = m.poly_idx then (Vals.v1 xs).lastDim
      else (m.poly_idx.filter fun k => k ∈ index).length) + 1 =
      m.poly_idx.length + 1 := by
    split
    next heq =>
      have hl2 := congrArg List.length heq
      simp only [Vals.lastDim]
      omega
    next => rw [reorder_filter_eq index m.poly_idx h4]
  simp only [array_from_values]
  rw [if_neg (by simp [Vals.ndim]), if_neg (by simp [Vals.lastDim, h2]),
    if_neg (by simp), if_neg h3, if_neg (not_not_intro h4)]
  simp only [hi, hcnt]
  rw [hn, if_pos (entriesOk3_true v (m.poly_idx.length + 1)
    (m.poly_idx.length : Int) hbnd' (by exact_mod_cast Nat.lt_succ_self _))]

/-- Evaluation of `array_from_values` on 2D values over a refined
(weighted) mapping, when every validation check passes. -/
theorem afv_v2_weighted_eq (p : List Int) (i : NdArr) (c0 : Option Arr3)
    (m : GPC) (v cnt : Arr3) (_h : gpcInit p i c0 = .ok m)
    (hi : m.idx_ar = .a3 v) (hcnt : m.ar_count = some cnt)
    (hbnd : m.idxBounded) (index : List Int) (xss : List (List ℚ))
    (h2 : index.length = (xss.headD []).length)
    (h3 : ¬ ∀ x ∈ index, x ∉ m.poly_idx)
    (h4 : ∀ k ∈ m.poly_idx, k ∈ index) (fill : ℚ) :
    array_from_values m index (.v2 xss) fill false =
      .ok (.o3 (fun t r c => fillAdd cnt fill (blend v cnt
        (fill :: (if index = m.poly_idx then xss
                  else xss.map (reorderRow index m.poly_idx)).getD t [])) r c)
        m.maskAt) := by
  have hbnd' : ∀ lev ∈ v.data, ∀ row ∈ lev, ∀ e ∈ row,
      0 ≤ e ∧ e ≤ (m.poly_idx.length : Int) := by
    simpa [GPC.idxBounded, hi] using hbnd
  have hn : (if index = m.poly_idx then (Vals.v2 xss).lastDim
      else (m.poly_idx.filter fun k => k ∈ index).length) + 1 =
      m.poly_idx.length + 1 := by
    split
    next heq =>
      have hl2 := congrArg List.length heq
      simp only [Vals.lastDim]
      omega
    next => rw [reorder_filter_eq index m.poly_idx h4]
  simp only [array_from_values]
  rw [if_neg (by simp [Vals.ndim]), if_neg (by simp [Vals.lastDim, h2]),
    if_neg (by simp), if_neg h3, if_neg (not_not_intro h4)]
  simp only [hi, hcnt]
  rw [hn, if_pos (entriesOk3_true v (m.poly_idx.length + 1)
    (m.poly_idx.length : Int) hbnd' (by exact_mod_cast Nat.lt_succ_self _))]

/-- Evaluation of `array_from_values` on 1D values over an unrefined
(weightless) mapping, when every validation check passes. -/
theorem afv_v1_plain_eq (p : List Int) (i : NdArr) (c0 : Option Arr3)
    (m : GPC) (v : Arr2) (_h : gpcInit p i c0 = .ok m)
    (hi : m.idx_ar = .a2 v) (hcnt : m.ar_count = none)
    (hbnd : m.idxBounded) (index : List Int) (xs : List ℚ)
    (h2 : index.length = xs.length)
    (h3 : ¬ ∀ x ∈ index, x ∉ m.poly_idx)
    (h4 : ∀ k ∈ m.poly_idx, k ∈ index) (fill : ℚ) :
    array_from_values m index (.v1 xs) fill false =
      .ok (.o2 (fun r c => pyGet
        (fill :: (if index = m.poly_idx then xs
                  else reorderRow index m.poly_idx xs)) (v.get r c))
        m.maskAt) := by
  have hbnd' : ∀ row ∈ v.data, ∀ e ∈ row,
      0 ≤ e ∧ e ≤ (m.poly_idx.length : Int) := by
    simpa [GPC.idxBounded, hi] using hbnd
  have hn : (if index = m.poly_idx then (Vals.v1 xs).lastDim
      else (m.poly_idx.filter fun k => k ∈ index).length) + 1 =
      m.poly_idx.length + 1 := by
    split
    next heq =>
      have hl2 := congrArg List.length heq
      simp only [Vals.lastDim]
      omega
    next => rw [reorder_filter_eq index m.poly_idx h4]
  simp only [array_from_values]
  rw [if_neg (by simp [Vals.ndim]), if_neg (by simp [Vals.lastDim, h2]),
    if_neg (by simp), if_neg h3, if_neg (not_not_intro h4)]
  simp only [hi, hcnt]
  rw [hn, if_pos (entriesOk2_true v (m.poly_idx.length + 1)
    (m.poly_idx.length : Int) hbnd' (by exact_mod_cast Nat.lt_succ_self _))]

/-- Evaluation of `array_from_values` on 2D values over an unrefined
(weightless) mapping, when every validation check passes. -/
theorem afv_v2_plain_eq (p : List Int) (i : NdArr) (c0 : Option Arr3)
    (m : GPC) (v : Arr2) (_h : gpcInit p i c0 = .ok m)
    (hi : m.idx_ar = .a2 v) (hcnt : m.ar_count = none)
    (hbnd : m.idxBounded) (index : List Int) (xss : List (List ℚ))
    (h2 : index.length = (xss.headD []).length)
    (h3 : ¬ ∀ x ∈ index, x ∉ m.poly_idx)
    (h4 : ∀ k ∈ m.poly_idx, k ∈ index) (fill : ℚ) :
    array_from_values m index (.v2 xss) fill false =
      .ok (.o3 (fun t r c => pyGet
        (fill :: (if index = m.poly_idx then xss
                  else xss.map (reorderRow index m.poly_idx)).getD t [])
        (v.get r c)) m.maskAt) := by
  have hbnd' : ∀ row ∈ v.data, ∀ e ∈ row,
      0 ≤ e ∧ e ≤ (m.poly_idx.length : Int) := by
    simpa [GPC.idxBounded, hi] using hbnd
  have hn : (if index = m.poly_idx then (Vals.v2 xss).lastDim
      else (m.poly_idx.filter fun k => k ∈ index).length) + 1 =
      m.poly_idx.length + 1 := by
    split
    next heq =>
      have hl2 := congrArg List.length heq
      simp only [Vals.lastDim]
      omega
    next => rw [reorder_filter_eq index m.poly_idx h4]
  simp only [array_from_values]
  rw [if_neg (by simp [Vals.ndim]), if_neg (by simp [Vals.lastDim, h2]),
    if_neg (by simp), if_neg h3, if_neg (not_not_intro h4)]
  simp only [hi, hcnt]
  rw [hn, if_pos (entriesOk2_true v (m.poly_idx.length + 1)
    (m.poly_idx.length : Int) hbnd' (by exact_mod_cast Nat.lt_succ_self _))]

/-- On a constructed mapping with bounded index entries,
`array_from_values` succeeds whenever the four validation conditions
hold. -/
theorem afv_success (p : List Int) (i : NdArr) (c0 : Option Arr3)
    (m : GPC) (h : gpcInit p i c0 = .ok m) (hbnd : m.idxBounded)
    (index : List Int) (values : Vals) (hwf : values.WF)
    (h1 : values.ndim = 1 ∨ values.ndim = 2)
    (h2 : index.length = values.lastDim)
    (h3 : ¬ ∀ x ∈ index, x ∉ m.poly_idx)
    (h4 : ∀ k ∈ m.poly_idx, k ∈ index) (fill : ℚ) :
    ∃ o, array_from_values m index values fill false = .ok o := by
  obtain ⟨hp, hia, hcase⟩ := gpcInit_cases p i c0 m h
  cases values with
  | vother n =>
    obtain ⟨hn1, hn2⟩ := hwf
    simp [Vals.ndim] at h1
    rcases h1 with h1 | h1
    · exact absurd h1 hn1
    · exact absurd h1 hn2
  | v1 xs =>
    rcases hcase with ⟨v, hv, hc⟩ | ⟨v, cnt, hv, hc, -⟩
    · exact ⟨_, afv_v1_plain_eq p i c0 m v h (hia.trans hv) hc hbnd index xs
        (by simpa [Vals.lastDim] using h2) h3 h4 fill⟩
    · exact ⟨_, afv_v1_weighted_eq p i c0 m v cnt h (hia.trans hv) hc hbnd
        index xs (by simpa [Vals.lastDim] using h2) h3 h4 fill⟩
  | v2 xss =>
    rcases hcase with ⟨v, hv, hc⟩ | ⟨v, cnt, hv, hc, -⟩
    · exact ⟨_, afv_v2_plain_eq p i c0 m v h (hia.trans hv) hc hbnd index xss
        (by simpa [Vals.lastDim] using h2) h3 h4 fill⟩
    · exact ⟨_, afv_v2_weighted_eq p i c0 m v cnt h (hia.trans hv) hc hbnd
        index xss (by simpa [Vals.lastDim] using h2) h3 h4 fill⟩

/-! ## Theorems -/

/-- C9: For every ConversionMapping x, serializing x and deserializing
the result (`__getstate__` then `__setstate__`) yields an object whose
`poly_idx` equals `x.poly_idx`, whose `idx_ar` is array-element-exactly
equal to `x.idx_ar`, and whose `ar_count` is array-element-exactly
equal to `x.ar_count` (both `None` or both equal arrays), independent
of object identity. Stated for every mapping produced by a successful
`__init__`; the re-run of `__init__` succeeds and reproduces all three
datasets exactly. -/
theorem getstate_setstate_roundtrip (p : List Int) (i : NdArr)
    (c : Option Arr3) (m : GPC) (h : gpcInit p i c = .ok m) :
    setstate m.getstate = .ok m := by
  by_cases hd : p.length ≠ p.dedup.length
  · cases i <;> simp [gpcInit, hd] at h
  · cases i with
    | a2 v =>
      simp only [gpcInit, if_neg hd] at h
      obtain rfl := (Except.ok.injEq _ _).mp h
      simpa [setstate, GPC.getstate, gpcInit] using hd
    | a3 v =>
      cases c with
      | none => simp [gpcInit, hd] at h
      | some cnt =>
        simp only [gpcInit, if_neg hd] at h
        split at h
        next => simp at h
        next hns =>
          obtain rfl := (Except.ok.injEq _ _).mp h
          simp only [setstate, GPC.getstate, gpcInit, if_neg hd]
          split
          next hc2 => exact absurd hc2 hns
          next => rfl

/-- Witness for C9 at a concrete 3D mapping. -/
theorem getstate_setstate_roundtrip_witness :
    setstate (GPC.mk [3, 7] (.a3 ⟨1, 1, 2, [[[1, 2]]]⟩)
      (some ⟨1, 1, 2, [[[4, 1]]]⟩)).getstate =
      .ok (GPC.mk [3, 7] (.a3 ⟨1, 1, 2, [[[1, 2]]]⟩)
        (some ⟨1, 1, 2, [[[4, 1]]]⟩)) :=
  getstate_setstate_roundtrip [3, 7] (.a3 ⟨1, 1, 2, [[[1, 2]]]⟩)
    (some ⟨1, 1, 2, [[[4, 1]]]⟩) _ (by rfl)

/-- C3 (amended): For every refined (3D) ConversionMapping constructed
by `GridPolyConv.__init__`, at every cell inside the array bounds the
per-cell sum of `Weight` over all levels is between 0 and 1 inclusive:
every level's weight equals `count / total` exactly (so the sum is 1)
wherever the per-cell total of `ar_count` is non-zero, and every
level's weight is 0 (no division performed) wherever the per-cell
total is zero; the sum equals 1 wherever `CoverageMask` is false AND
the per-cell total count is non-zero (the original claim's
unconditional "sum is 1 wherever CoverageMask is false" fails, see
`weight_mask_cex`). -/
theorem weight_sum_invariant (p : List Int) (i : NdArr) (c0 : Option Arr3)
    (m : GPC) (cnt : Arr3) (_h : gpcInit p i c0 = .ok m)
    (hcnt : m.ar_count = some cnt) (r c : Nat)
    (hr : r < cnt.nrow) (hc : c < cnt.ncol) :
    (0 ≤ m.wsumAt r c ∧ m.wsumAt r c ≤ 1) ∧
      (colTotal cnt r c ≠ 0 →
        (∀ l, weightFn cnt l r c = (cnt.get l r c : ℚ) / (colTotal cnt r c : ℚ)) ∧
          m.wsumAt r c = 1) ∧
      (colTotal cnt r c = 0 →
        (∀ l, weightFn cnt l r c = 0) ∧ m.wsumAt r c = 0) ∧
      (m.maskAt r c = false → colTotal cnt r c ≠ 0 → m.wsumAt r c = 1) := by
  have hws : m.wsumAt r c = wsum cnt r c := by rw [GPC.wsumAt, hcnt]
  rw [hws, wsum_eq cnt r c hr hc]
  refine ⟨⟨?_, ?_⟩, fun hnz => ⟨?_, by rw [if_pos hnz]⟩,
    fun hz => ⟨?_, by simp [hz]⟩, fun _ hnz => by rw [if_pos hnz]⟩
  · split <;> norm_num
  · split <;> norm_num
  · intro l
    rw [weightFn_eq cnt l r c hr hc, if_pos hnz]
  · intro l
    rw [weightFn_eq cnt l r c hr hc, if_neg (by simp [hz])]

/-- Witness for C3 at a concrete two-level mapping with counts 3 and 1
in its single cell: the weight sum is 1. -/
theorem weight_sum_invariant_witness :
    GPC.wsumAt ⟨[1, 2], .a3 ⟨2, 1, 1, [[[1]], [[2]]]⟩,
        some ⟨2, 1, 1, [[[3]], [[1]]]⟩⟩ 0 0 = 1 :=
  ((weight_sum_invariant [1, 2] (.a3 ⟨2, 1, 1, [[[1]], [[2]]]⟩)
      (some ⟨2, 1, 1, [[[3]], [[1]]]⟩) _ ⟨2, 1, 1, [[[3]], [[1]]]⟩
      (by rfl) rfl 0 0 (by decide) (by decide)).2.1 (by decide)).2

/-- Counterexample for C3 as frozen: a 3D mapping accepted by
`__init__` whose single cell has a non-zero level-0 index (so
`CoverageMask` is false there) but an all-zero `ar_count` column, so
the weight sum at that cell is 0, not 1. -/
theorem weight_mask_cex :
    gpcInit [1] (.a3 ⟨1, 1, 1, [[[1]]]⟩) (some ⟨1, 1, 1, [[[0]]]⟩) =
        .ok ⟨[1], .a3 ⟨1, 1, 1, [[[1]]]⟩, some ⟨1, 1, 1, [[[0]]]⟩⟩ ∧
      GPC.maskAt ⟨[1], .a3 ⟨1, 1, 1, [[[1]]]⟩, some ⟨1, 1, 1, [[[0]]]⟩⟩ 0 0
        = false ∧
      GPC.wsumAt ⟨[1], .a3 ⟨1, 1, 1, [[[1]]]⟩, some ⟨1, 1, 1, [[[0]]]⟩⟩ 0 0
        = 0 := by
  refine ⟨by rfl, by decide, ?_⟩
  show wsum _ 0 0 = 0
  rw [wsum_eq _ 0 0 (by decide) (by decide)]
  norm_num [colTotal, Arr3.get]

/-- C10: For every pair of GridPolyConv objects `a` and `b` of the same
class with `a.poly_idx = b.poly_idx` and `a.idx_ar` array-equal to
`b.idx_ar`, `__eq__` returns `True` with no constraint whatsoever on
`ar_count` (which may differ, or be `None` on one side only): the
`ar_count` comparison in the source is unreachable, because both
branches of the `idx_ar` try/except comparison return first. -/
theorem eqFn_ignores_ar_count (a b : GPC) (h1 : a.poly_idx = b.poly_idx)
    (h2 : a.idx_ar = b.idx_ar) : GPC.eqFn a b = true := by
  simp [GPC.eqFn, h1, h2]

/-- Witness for C10: two mappings with equal `poly_idx` and `idx_ar` but
different `ar_count` arrays compare equal. -/
theorem eqFn_ignores_ar_count_witness :
    GPC.eqFn
        ⟨[5], .a3 ⟨1, 1, 1, [[[1]]]⟩, some ⟨1, 1, 1, [[[2]]]⟩⟩
        ⟨[5], .a3 ⟨1, 1, 1, [[[1]]]⟩, some ⟨1, 1, 1, [[[9]]]⟩⟩ = true ∧
      (some (Arr3.mk 1 1 1 [[[2]]]) : Option Arr3) ≠ some ⟨1, 1, 1, [[[9]]]⟩ :=
  ⟨eqFn_ignores_ar_count _ _ rfl rfl, by decide⟩

/-- C1 (amended): For every call to `from_grid_vector` with caching
enabled, a failure to write the cache file OTHER THAN a
`pickle.PicklingError` never escalates to the caller: with
`GRID_CACHE_DIR` unset the store is attempted in the polygon source's
directory, retried in the current working directory exactly when the
first attempt fails, and if both fail the freshly built
ConversionMapping is still returned with no exception (with
`GRID_CACHE_DIR` set, only that directory is attempted); a
`PicklingError` raised while writing is re-raised to the caller (see
`store_pickle_escalates_cex` for the failure of the claim as
frozen). -/
theorem store_phase_spec (obj : GPC) (srcDir cwd d : String)
    (out : String → WOut) (h1 : out srcDir ≠ .pickleErr)
    (h2 : out cwd ≠ .pickleErr) (h3 : out d ≠ .pickleErr) :
    fgv_store obj none srcDir cwd out =
        .ok (obj, if out srcDir = .otherErr then [srcDir, cwd] else [srcDir]) ∧
      fgv_store obj (some d) srcDir cwd out = .ok (obj, [d]) := by
  constructor
  · rcases hs : out srcDir with _ | _ | _
    · simp [fgv_store, write_cache, hs]
    · exact absurd hs h1
    · rcases hc : out cwd with _ | _ | _
      · simp [fgv_store, write_cache, hs, hc]
      · exact absurd hc h2
      · simp [fgv_store, write_cache, hs, hc]
  · rcases hd : out d with _ | _ | _
    · simp [fgv_store, write_cache, hd]
    · exact absurd hd h3
    · simp [fgv_store, write_cache, hd]

/-- Witness for C1 (amended): every write attempt fails with an
ordinary (non-pickling) exception in both candidate directories, yet
the freshly built mapping is returned and both directories were
tried. -/
theorem store_phase_spec_witness :
    fgv_store ⟨[1], .a2 ⟨1, 1, [[1]]⟩, none⟩ none "vec_dir" "." (fun _ => .otherErr) =
      .ok (⟨[1], .a2 ⟨1, 1, [[1]]⟩, none⟩, ["vec_dir", "."]) := by
  have h := (store_phase_spec ⟨[1], .a2 ⟨1, 1, [[1]]⟩, none⟩ "vec_dir" "." "x"
    (fun _ => .otherErr) (by decide) (by decide) (by decide)).1
  simpa using h

/-- Counterexample for C1 as frozen: when serializing the freshly built
mapping raises `pickle.PicklingError`, `write_cache` re-raises it, so
the store failure DOES escalate to the caller of `from_grid_vector`
instead of returning the mapping. -/
theorem store_pickle_escalates_cex :
    fgv_store ⟨[1], .a2 ⟨1, 1, [[1]]⟩, none⟩ none "vec_dir" "."
      (fun _ => .pickleErr) = .error "PicklingError" := rfl

/-- C8: For every cache lookup hit in `from_grid_vector`, if
deserialization of the cache file fails for any reason, the corrupt
cache file is deleted (`os.remove`), the deserialization error is not
propagated to the caller, and execution falls through to rebuilding
the mapping from the polygon source: the result is the rebuilt
mapping, with exactly the corrupt file removed. -/
theorem cache_read_fallthrough (p : String)
    (load : String → Except String GPC) (rebuild : GPC) (e : String)
    (h : load p = .error e) :
    fgv_read (some p) load rebuild = (rebuild, [p]) := by
  simp [fgv_read, h]

/-- Witness for C8: a concrete corrupt cache file. -/
theorem cache_read_fallthrough_witness :
    fgv_read (some "c0a1b2c3d.gpc") (fun _ => .error "invalid load key")
      ⟨[2], .a2 ⟨1, 1, [[1]]⟩, none⟩ = (⟨[2], .a2 ⟨1, 1, [[1]]⟩, none⟩, ["c0a1b2c3d.gpc"]) :=
  cache_read_fallthrough "c0a1b2c3d.gpc" _ _ "invalid load key" rfl

/-- C6: For every parsed time window (months `s`, `e` between 1 and 12)
and any timestamp month `m`: when the window's length in months is
congruent to 0 mod 12 — `(e - s + 1) % 12 = 0`, which includes
wrapping windows such as Jul-Jun — no month masking is applied (every
timestamp selected); when `s > e` and the length is not a multiple of
12, the month-selection mask wraps across the year boundary
(`m ≥ s ∨ m ≤ e`); otherwise the mask is the contiguous range
(`s ≤ m ∧ m ≤ e`). -/
theorem month_sel_spec (s e m : Int) (_hs1 : 1 ≤ s) (_hs2 : s ≤ 12)
    (_he1 : 1 ≤ e) (_he2 : e ≤ 12) :
    ((e - s + 1) % 12 = 0 → month_sel s e m = true) ∧
      (s > e → (e - s + 1) % 12 ≠ 0 →
        (month_sel s e m = true ↔ (m ≥ s ∨ m ≤ e))) ∧
      (s ≤ e → (e - s + 1) % 12 ≠ 0 →
        (month_sel s e m = true ↔ (s ≤ m ∧ m ≤ e))) := by
  refine ⟨fun h0 => ?_, fun hgt hmod => ?_, fun hle hmod => ?_⟩
  · rw [month_sel, if_pos (by simpa [num_months0] using h0)]
  · rw [month_sel, if_neg (by simpa [num_months0] using hmod),
      if_pos (by simp only [num_months0]; omega)]
    simp
  · rw [month_sel, if_neg (by simpa [num_months0] using hmod),
      if_neg (by simp only [num_months0]; omega)]
    simp

/-- Witness for C6: the wrapping 12-month water-year window Jul-Jun
(s = 7 > e = 6, length ≡ 0 mod 12) selects a March timestamp, and the
wrapping 3-month window Dec-Feb selects January but the contiguous
window Feb-Apr does not select January. -/
theorem month_sel_spec_witness :
    month_sel 7 6 3 = true ∧ month_sel 12 2 1 = true ∧
      month_sel 2 4 1 = false := by
  refine ⟨(month_sel_spec 7 6 3 (by norm_num) (by norm_num) (by norm_num)
      (by norm_num)).1 (by norm_num), ?_, ?_⟩
  · exact ((month_sel_spec 12 2 1 (by norm_num) (by norm_num) (by norm_num)
      (by norm_num)).2.1 (by norm_num) (by norm_num)).mpr (by norm_num)
  · have h := ((month_sel_spec 2 4 1 (by norm_num) (by norm_num) (by norm_num)
      (by norm_num)).2.2 (by norm_num) (by norm_num))
    simp only [show ¬((2 : Int) ≤ 1 ∧ (1 : Int) ≤ 4) by norm_num, iff_false] at h
    exact Bool.not_eq_true _ ▸ Bool.of_not_eq_true h

/-- C7: With the spec's projector signature (default
`enforce1d=False`), `array_from_values` on a constructed mapping with
in-range index entries fails exactly when: `values` has a number of
dimensions other than 1 or 2; or the length of the last dimension of
`values` does not equal the length of `index`; or `index` is disjoint
from `poly_idx` (one distinct error message); or `index` is not a
superset of `poly_idx` (a different error message of the same
`ValueError` class); on all other valid inputs it returns an output
array without raising. -/
theorem array_from_values_error_spec (p : List Int) (i : NdArr)
    (c0 : Option Arr3) (m : GPC) (h : gpcInit p i c0 = .ok m)
    (hbnd : m.idxBounded) (index : List Int) (values : Vals)
    (hwf : values.WF) (fill : ℚ) :
    ((∃ e, array_from_values m index values fill false = .error e) ↔
        (¬ (values.ndim = 1 ∨ values.ndim = 2) ∨
          index.length ≠ values.lastDim ∨
          (∀ x ∈ index, x ∉ m.poly_idx) ∨
          ¬ ∀ k ∈ m.poly_idx, k ∈ index)) ∧
      ((values.ndim = 1 ∨ values.ndim = 2) → index.length = values.lastDim →
        (∀ x ∈ index, x ∉ m.poly_idx) →
        array_from_values m index values fill false =
          .error "index is disjoint from poly_idx") ∧
      ((values.ndim = 1 ∨ values.ndim = 2) → index.length = values.lastDim →
        ¬ (∀ x ∈ index, x ∉ m.poly_idx) → ¬ (∀ k ∈ m.poly_idx, k ∈ index) →
        array_from_values m index values fill false =
          .error "index is not a superset of poly_idx") := by
  refine ⟨⟨fun hex => ?_, fun hor => ?_⟩, fun hA hB k3 => ?_,
    fun hA hB k3 k4 => ?_⟩
  · by_contra hnc
    push_neg at hnc
    obtain ⟨hA, hB, hC, hD⟩ := hnc
    obtain ⟨o, ho⟩ := afv_success p i c0 m h hbnd index values hwf hA hB
      (fun hall => by obtain ⟨x, hx1, hx2⟩ := hC; exact hall x hx1 hx2) hD fill
    obtain ⟨e, he⟩ := hex
    rw [ho] at he
    simp at he
  · by_cases k1 : values.ndim ≠ 1 ∧ values.ndim ≠ 2
    · refine ⟨"expected values to have 1 or 2 dimensions", ?_⟩
      simp only [array_from_values]
      rw [if_pos k1]
    · have hA : values.ndim = 1 ∨ values.ndim = 2 := by tauto
      by_cases k2 : index.length ≠ values.lastDim
      · refine ⟨"length of last dimension of values does not match index length", ?_⟩
        simp only [array_from_values]
        rw [if_neg k1, if_pos k2]
      · by_cases k3 : ∀ x ∈ index, x ∉ m.poly_idx
        · refine ⟨"index is disjoint from poly_idx", ?_⟩
          simp only [array_from_values]
          rw [if_neg k1, if_neg k2, if_neg (by simp), if_pos k3]
        · by_cases k4 : ∀ k ∈ m.poly_idx, k ∈ index
          · exfalso
            rcases hor with hA' | hB' | hC' | hD'
            · exact hA' hA
            · exact hB' (not_not.mp k2)
            · exact k3 hC'
            · exact hD' k4
          · refine ⟨"index is not a superset of poly_idx", ?_⟩
            simp only [array_from_values]
            rw [if_neg k1, if_neg k2, if_neg (by simp), if_neg k3, if_pos k4]
  · simp only [array_from_values]
    rw [if_neg (by tauto), if_neg (by omega), if_neg (by simp), if_pos k3]
  · simp only [array_from_values]
    rw [if_neg (by tauto), if_neg (by omega), if_neg (by simp), if_neg k3,
      if_pos k4]

/-- Witness for C7 on a concrete unrefined mapping with one polygon key
5: a disjoint key list raises the disjoint message, a non-superset key
list raises the other message, and a valid call returns an array. -/
theorem array_from_values_error_spec_witness :
    array_from_values ⟨[5], .a2 ⟨1, 1, [[1]]⟩, none⟩ [9] (.v1 [4]) 0 false =
        .error "index is disjoint from poly_idx" ∧
      array_from_values ⟨[5, 6], .a2 ⟨1, 1, [[1]]⟩, none⟩ [5] (.v1 [4]) 0 false
        = .error "index is not a superset of poly_idx" ∧
      (∃ o, array_from_values ⟨[5], .a2 ⟨1, 1, [[1]]⟩, none⟩ [5] (.v1 [4]) 0
        false = .ok o) := by
  refine ⟨?_, ?_, ?_⟩
  · exact (array_from_values_error_spec [5] (.a2 ⟨1, 1, [[1]]⟩) none
      ⟨[5], .a2 ⟨1, 1, [[1]]⟩, none⟩ (by rfl) (by decide) [9] (.v1 [4])
      trivial 0).2.1 (.inl rfl) rfl (by decide)
  · exact (array_from_values_error_spec [5, 6] (.a2 ⟨1, 1, [[1]]⟩) none
      ⟨[5, 6], .a2 ⟨1, 1, [[1]]⟩, none⟩ (by rfl) (by decide) [5] (.v1 [4])
      trivial 0).2.2 (.inl rfl) rfl (by decide) (by decide)
  · have hiff := (array_from_values_error_spec [5] (.a2 ⟨1, 1, [[1]]⟩) none
      ⟨[5], .a2 ⟨1, 1, [[1]]⟩, none⟩ (by rfl) (by decide) [5] (.v1 [4])
      trivial 0).1
    rcases hres : array_from_values ⟨[5], .a2 ⟨1, 1, [[1]]⟩, none⟩ [5]
        (.v1 [4]) 0 false with e | o
    · exact absurd (hiff.mp ⟨e, hres⟩) (by decide)
    · exact ⟨o, rfl⟩

/-- C4 (amended): For every weighted (refined) mapping whose weight is
zero wherever the index raster is zero (as the digitization engine
produces) and valid inputs to `array_from_values`: with `fill = 0` the
output is exactly the per-level gather of the 0-extended values
multiplied by `Weight` and summed over levels, with no extra outside
contribution even at cells whose weights sum to less than 1; with
`fill ≠ 0` the quantity `(1 − clip(sum of weights over levels, 0, 1))
× fill` is additionally added to every output cell, so cells differ
from the `fill = 0` result by exactly `(1 − coverage) × fill`; a 2D
`values` row is projected exactly like the corresponding 1D call (the
original unconditional claim fails without the zero-weight proviso,
see `afv_fill_gather_cex`). -/
theorem array_from_values_fill_spec (p : List Int) (i : NdArr)
    (c0 : Option Arr3) (m : GPC) (v cnt : Arr3)
    (h : gpcInit p i c0 = .ok m) (hi : m.idx_ar = .a3 v)
    (hcnt : m.ar_count = some cnt) (hbnd : m.idxBounded)
    (hzw : ∀ l < cnt.nlev, ∀ r < cnt.nrow, ∀ c < cnt.ncol,
      v.get l r c = 0 → weightFn cnt l r c = 0)
    (index : List Int) (xs : List ℚ) (h2 : index.length = xs.length)
    (h3 : ¬ ∀ x ∈ index, x ∉ m.poly_idx)
    (h4 : ∀ k ∈ m.poly_idx, k ∈ index) (fill : ℚ) (r c : Nat)
    (hr : r < cnt.nrow) (hc : c < cnt.ncol) :
    (∃ o, array_from_values m index (.v1 xs) fill false = .ok o) ∧
      afvVal2 m index (.v1 xs) 0 r c =
        blend v cnt ((0 : ℚ) :: (if index = m.poly_idx then xs
          else reorderRow index m.poly_idx xs)) r c ∧
      (fill ≠ 0 → afvVal2 m index (.v1 xs) fill r c =
        afvVal2 m index (.v1 xs) 0 r c + (1 - clip01 (wsum cnt r c)) * fill) ∧
      (∀ xss t, (xss.headD []).length = xs.length → t < xss.length →
        xss.getD t [] = xs →
        afvVal3 m index (.v2 xss) fill t r c =
          afvVal2 m index (.v1 xs) fill r c) := by
  obtain ⟨hp, hia, hcase⟩ := gpcInit_cases p i c0 m h
  have hvc : cnt.nlev = v.nlev := by
    rcases hcase with ⟨v', hv', hc'⟩ | ⟨v', cnt', hv', hc', hsh⟩
    · rw [hia, hv'] at hi
      cases hi
    · rw [hia, hv'] at hi
      obtain rfl := (NdArr.a3.injEq _ _).mp hi.symm
      rw [hcnt] at hc'
      obtain rfl := (Option.some.injEq _ _).mp hc'.symm
      exact hsh.1
  have hble : ∀ z : ℚ, blend v cnt
      (z :: (if index = m.poly_idx then xs
             else reorderRow index m.poly_idx xs)) r c =
      blend v cnt ((0 : ℚ) :: (if index = m.poly_idx then xs
             else reorderRow index m.poly_idx xs)) r c := by
    intro z
    refine blend_cons_eq v cnt _ z 0 r c (fun l hl => hzw l hl r hr c hc)
      hvc fun l => ?_
    have hbnd' : ∀ lev ∈ v.data, ∀ row ∈ lev, ∀ e ∈ row,
        0 ≤ e ∧ e ≤ (m.poly_idx.length : Int) := by
      simpa [GPC.idxBounded, hi] using hbnd
    exact (get3_bounded v (m.poly_idx.length : Int) (by positivity)
      hbnd' l r c).1
  have hEq := fun f => afv_v1_weighted_eq p i c0 m v cnt h hi hcnt hbnd
    index xs h2 h3 h4 f
  refine ⟨⟨_, hEq fill⟩, ?_, fun hfz => ?_, fun xss t hhead ht hrow => ?_⟩
  · unfold afvVal2
    rw [hEq 0]
    simp only [MOut.val2]
    rw [fillAdd_zero]
  · unfold afvVal2
    rw [hEq fill, hEq 0]
    simp only [MOut.val2]
    rw [fillAdd_ne cnt fill hfz, fillAdd_zero, hble fill]
  · have hEqv2 := afv_v2_weighted_eq p i c0 m v cnt h hi hcnt hbnd index xss
      (h2.trans hhead.symm) h3 h4 fill
    unfold afvVal3 afvVal2
    rw [hEqv2, hEq fill]
    simp only [MOut.val3, MOut.val2]
    have hgd : (if index = m.poly_idx then xss
        else xss.map (reorderRow index m.poly_idx)).getD t [] =
        (if index = m.poly_idx then xs
         else reorderRow index m.poly_idx xs) := by
      split
      · exact hrow
      · rw [getD_map_of_lt (reorderRow index m.poly_idx) xss t ht [] [], hrow]
    rw [hgd]

/-- Witness for C4 at a concrete one-cell refined mapping (one polygon,
count 2): the fill-difference identity holds with fill 3. -/
theorem array_from_values_fill_spec_witness :
    afvVal2 ⟨[1], .a3 ⟨1, 1, 1, [[[1]]]⟩, some ⟨1, 1, 1, [[[2]]]⟩⟩ [1]
        (.v1 [7]) 3 0 0 =
      afvVal2 ⟨[1], .a3 ⟨1, 1, 1, [[[1]]]⟩, some ⟨1, 1, 1, [[[2]]]⟩⟩ [1]
        (.v1 [7]) 0 0 0 +
        (1 - clip01 (wsum ⟨1, 1, 1, [[[2]]]⟩ 0 0)) * 3 :=
  (array_from_values_fill_spec [1] (.a3 ⟨1, 1, 1, [[[1]]]⟩)
    (some ⟨1, 1, 1, [[[2]]]⟩) ⟨[1], .a3 ⟨1, 1, 1, [[[1]]]⟩,
      some ⟨1, 1, 1, [[[2]]]⟩⟩ ⟨1, 1, 1, [[[1]]]⟩ ⟨1, 1, 1, [[[2]]]⟩
    (by rfl) rfl rfl (by decide) (by decide) [1] [7] rfl (by decide)
    (by decide) 3 0 0 (by decide) (by decide)).2.2.1 (by norm_num)

/-- Counterexample for C4 as frozen: a mapping accepted by `__init__`
whose single cell has index 0 but count 3 (weight 1 at the index-0
level). With fill 5 the output gathers the fill through the weighted
index-0 slot and equals 5, while the fill-0 output is 0 and the
claimed difference `(1 − clip(coverage)) × fill` is 0; the outputs do
not differ by the claimed amount. -/
theorem afv_fill_gather_cex :
    gpcInit [1] (.a3 ⟨1, 1, 1, [[[0]]]⟩) (some ⟨1, 1, 1, [[[3]]]⟩) =
        .ok ⟨[1], .a3 ⟨1, 1, 1, [[[0]]]⟩, some ⟨1, 1, 1, [[[3]]]⟩⟩ ∧
      afvVal2 ⟨[1], .a3 ⟨1, 1, 1, [[[0]]]⟩, some ⟨1, 1, 1, [[[3]]]⟩⟩ [1]
        (.v1 [10]) 5 0 0 = 5 ∧
      afvVal2 ⟨[1], .a3 ⟨1, 1, 1, [[[0]]]⟩, some ⟨1, 1, 1, [[[3]]]⟩⟩ [1]
        (.v1 [10]) 0 0 0 = 0 ∧
      (1 - clip01 (wsum ⟨1, 1, 1, [[[3]]]⟩ 0 0)) * 5 = 0 ∧ (5 : ℚ) ≠ 0 := by
  have hct : colTotal ⟨1, 1, 1, [[[3]]]⟩ 0 0 = 3 := by
    simp [colTotal, Finset.sum_range_one, Arr3.get]
  have hw : weightFn ⟨1, 1, 1, [[[3]]]⟩ 0 0 0 = 1 := by
    rw [weightFn_eq _ 0 0 0 (by norm_num) (by norm_num),
      if_pos (by rw [hct]; norm_num), hct]
    norm_num [Arr3.get]
  have hws : wsum ⟨1, 1, 1, [[[3]]]⟩ 0 0 = 1 := by
    rw [wsum_eq _ 0 0 (by norm_num) (by norm_num), if_pos (by rw [hct]; norm_num)]
  have hEqf := fun f : ℚ => afv_v1_weighted_eq [1] (.a3 ⟨1, 1, 1, [[[0]]]⟩)
    (some ⟨1, 1, 1, [[[3]]]⟩)
    ⟨[1], .a3 ⟨1, 1, 1, [[[0]]]⟩, some ⟨1, 1, 1, [[[3]]]⟩⟩
    ⟨1, 1, 1, [[[0]]]⟩ ⟨1, 1, 1, [[[3]]]⟩ (by rfl) rfl rfl (by decide)
    [1] [10] rfl (by decide) (by decide) f
  refine ⟨by rfl, ?_, ?_, by rw [hws]; norm_num [clip01], by norm_num⟩
  · unfold afvVal2
    rw [hEqf 5]
    simp only [MOut.val2]
    rw [fillAdd_ne _ _ (by norm_num), hws]
    unfold blend
    norm_num [Finset.sum_range_one, Arr3.get, pyGet, hw, clip01,
      List.getD_cons_zero]
  · unfold afvVal2
    rw [hEqf 0]
    simp only [MOut.val2]
    rw [fillAdd_zero]
    unfold blend
    norm_num [Finset.sum_range_one, Arr3.get, pyGet, hw, List.getD_cons_zero]

/-- C5: For every cache directory search (over the files a directory
holds), an exact filename match is returned when present (in either
caching mode); in the cheap (standard, `caching=1`) fingerprint mode
only, when no exact match exists, an existing cache file whose first 9
characters equal the first 9 characters of the computed filename is
returned as a fallback; in the strict (`caching=2`) mode no prefix
fallback occurs and only an exact filename match is accepted. The
computed filename is a cache name (`c` prefix, `.gpc` suffix). -/
theorem find_cache_spec (listing : List FName) (fname : FName)
    (caching : Nat) (hwf : isCacheFile fname = true) :
    (fname ∈ listing → find_cache true listing fname caching = some fname) ∧
      (fname ∉ listing →
        ∀ g ∈ listing, isCacheFile g = true → g.take 9 = fname.take 9 →
          ∃ f, find_cache true listing fname 1 = some f ∧ f ∈ listing ∧
            isCacheFile f = true ∧ f.take 9 = fname.take 9) ∧
      (fname ∉ listing → find_cache true listing fname 2 = none) := by
  have hfc : ∀ cch : Nat, find_cache true listing fname cch =
      (if (listing.filter isCacheFile).isEmpty then none
       else if fname ∈ listing.filter isCacheFile then some fname
       else if cch == 1 then
         ((listing.filter isCacheFile).filter
           fun f => f.take 9 == fname.take 9).head?
       else none) := fun _ => rfl
  refine ⟨fun hmem => ?_, fun hnot g hg hgc hgp => ?_, fun hnot => ?_⟩
  · have h1 : fname ∈ listing.filter isCacheFile :=
      List.mem_filter.mpr ⟨hmem, hwf⟩
    rw [hfc caching,
      if_neg (by simp only [List.isEmpty_iff]; exact List.ne_nil_of_mem h1),
      if_pos h1]
  · have hgld : g ∈ listing.filter isCacheFile := List.mem_filter.mpr ⟨hg, hgc⟩
    have hnotld : fname ∉ listing.filter isCacheFile :=
      fun hx => hnot (List.mem_filter.mp hx).1
    have hgfl : g ∈ (listing.filter isCacheFile).filter
        (fun f => f.take 9 == fname.take 9) :=
      List.mem_filter.mpr ⟨hgld, by simp [hgp]⟩
    rw [hfc 1,
      if_neg (by simp only [List.isEmpty_iff]; exact List.ne_nil_of_mem hgld),
      if_neg hnotld, if_pos (show ((1 : Nat) == 1) = true from rfl)]
    rcases hfl : (listing.filter isCacheFile).filter
        (fun f => f.take 9 == fname.take 9) with _ | ⟨a, t⟩
    · rw [hfl] at hgfl
      cases hgfl
    · have hafl : a ∈ (listing.filter isCacheFile).filter
          (fun f => f.take 9 == fname.take 9) := hfl ▸ List.mem_cons_self a t
      have hald := List.mem_filter.mp hafl
      have hal := List.mem_filter.mp hald.1
      exact ⟨a, by rw [hfl]; rfl, hal.1, hal.2, by simpa using hald.2⟩
  · have hnotld : fname ∉ listing.filter isCacheFile :=
      fun hx => hnot (List.mem_filter.mp hx).1
    rw [hfc 2]
    by_cases he : (listing.filter isCacheFile).isEmpty
    · rw [if_pos he]
    · rw [if_neg he, if_neg hnotld, if_neg (by decide)]

/-- Witness for C5: a strict-mode (17-hex) cache file in the directory.
The cheap-mode 9-character prefix lookup finds it; the strict-mode
lookup, whose computed name is not present, returns nothing; an exact
match is returned when present. -/
theorem find_cache_spec_witness :
    find_cache true ["c12345678abcdefgh.gpc".toList] "c12345678.gpc".toList 1 =
        some "c12345678abcdefgh.gpc".toList ∧
      find_cache true ["c12345678abcdefgh.gpc".toList] "c12345678.gpc".toList 2
        = none ∧
      find_cache true ["c12345678.gpc".toList] "c12345678.gpc".toList 2 =
        some "c12345678.gpc".toList := by
  refine ⟨?_, ?_, ?_⟩
  · obtain ⟨f, hres, hmem, -, -⟩ :=
      (find_cache_spec ["c12345678abcdefgh.gpc".toList] "c12345678.gpc".toList
        1 (by decide)).2.1 (by decide) "c12345678abcdefgh.gpc".toList
        (List.mem_singleton.mpr rfl) (by decide) (by decide)
    have : f = "c12345678abcdefgh.gpc".toList := List.mem_singleton.mp hmem
    rw [this] at hres
    exact hres
  · exact (find_cache_spec ["c12345678abcdefgh.gpc".toList]
      "c12345678.gpc".toList 2 (by decide)).2.2 (by decide)
  · exact (find_cache_spec ["c12345678.gpc".toList] "c12345678.gpc".toList 2
      (by decide)).1 (List.mem_singleton.mpr rfl)

/-- C2 (code-bug evaluation): `array_from_netcdf`'s year-ranking weight
`weight = self.weight.sum((1, 2))` is the vector of per-LEVEL weight
totals (length `nlev`), not per-polygon weight masses. For a valid
refined mapping with 2 levels and 3 polygons, multiplying the
per-polygon time series by it (`wvar = weight * var`) fails with a
numpy broadcast error, so no representative-year statistic can be
computed; the spec's per-polygon area-weight-mass ranking is not what
the code does. -/
theorem netcdf_weight_broadcast_bug :
    gpcInit [1, 2, 3] (.a3 ⟨2, 1, 1, [[[1]], [[2]]]⟩)
        (some ⟨2, 1, 1, [[[2]], [[1]]]⟩) =
          .ok ⟨[1, 2, 3], .a3 ⟨2, 1, 1, [[[1]], [[2]]]⟩,
            some ⟨2, 1, 1, [[[2]], [[1]]]⟩⟩ ∧
      wvarStep ⟨[1, 2, 3], .a3 ⟨2, 1, 1, [[[1]], [[2]]]⟩,
          some ⟨2, 1, 1, [[[2]], [[1]]]⟩⟩ [4, 5, 6] =
        .error "operands could not be broadcast together" :=
  ⟨rfl, rfl⟩

end Gridit
